import Mathlib

/-!
Display-data rendering of gopyter (`display.go`).

A shallow embedding of the display bundle construction code of the kernel:
the bundle builders (`MakeData`, `MakeData3`, `makeDataErr`, `MIME`, `Latex`,
`Math`, ...), the registry of auto-renderers, and the fallback renderer
(`fillDefaults`, `render`, `Any`, `Auto`).

Conventions of the embedding:

* a Go `string` is a Lean `String`; a `[]byte` is a `List Byte` with `Byte = Nat`;
* a Go map is an association list with one pair per key, a nil map is `none`;
* an `interface{}` that is stored in a bundle is a `Value`; an `interface{}`
  that is inspected by a type switch or a type assertion is an `Interface`,
  which records the method set of the dynamic value;
* a `panic` is the `Except.error` result.
-/

namespace Gopyter

/-! ## Values -/

/-- A byte of a Go `[]byte`. -/
abbrev Byte := Nat

/-- A Go `error` that is not nil, observed through its `Error()` method. -/
structure GoError where
  msg : String
  deriving DecidableEq, Repr

/-- The method `Error()` of a non-nil error. -/
def GoError.Error (e : GoError) : String := e.msg

/-- An `interface{}` as it is stored in a bundle: the nil interface, a string,
a byte slice, or a value of any other dynamic type, which the program only
ever stores and prints, and which is therefore represented by the name of its
type and its `fmt.Sprint` form. -/
inductive Value where
  | nil
  | str (s : String)
  | bytes (b : List Byte)
  | other (typ : String) (text : String)
  deriving DecidableEq, Repr

/-- The items of a printed slice, separated by blanks. -/
def joinSpace : List String → String
  | [] => ""
  | [x] => x
  | x :: y :: rest => x ++ " " ++ joinSpace (y :: rest)

/-- The library function `fmt.Sprint` on one operand: a string prints as itself,
a byte slice as its decimal bytes in square brackets, the nil interface as
`<nil>`. -/
def Sprint : Value → String
  | .nil => "<nil>"
  | .str s => s
  | .bytes b => "[" ++ joinSpace (b.map toString) ++ "]"
  | .other _ text => text

/-! ## Maps and bundles -/

/-- A Go map `map[string]interface{}` that has been allocated. -/
abbrev Map := List (String × Value)

/-- The index expression `m[k]` on an allocated map: the zero value of
`interface{}`, that is nil, when the key is absent. -/
def Map.get : Map → String → Value
  | [], _ => Value.nil
  | (k, v) :: rest, key => if k = key then v else Map.get rest key

/-- The assignment `m[k] = v`: replaces the value of a present key, adds the
pair otherwise. -/
def Map.set : Map → String → Value → Map
  | [], key, v => [(key, v)]
  | (k, w) :: rest, key, v => if k = key then (k, v) :: rest else (k, w) :: Map.set rest key v

/-- Whether the key has an entry in the map (the `ok` of `_, ok := m[k]`). -/
def Map.has : Map → String → Bool
  | [], _ => false
  | (k, _) :: rest, key => if k = key then true else Map.has rest key

/-- Modelled from the spec: the declaration of `MIMEMap` is not among the source
files; it is the mapping from media-type identifier to representation value of
the data model, `map[string]interface{}`, which may be nil (`none`). -/
abbrev MIMEMap := Option Map

/-- The index expression on a possibly nil map; reading a nil map gives nil. -/
def MIMEMap.get (m : MIMEMap) (key : String) : Value :=
  match m with
  | none => Value.nil
  | some l => Map.get l key

/-- Whether the key has an entry in a possibly nil map. -/
def MIMEMap.has (m : MIMEMap) (key : String) : Bool :=
  match m with
  | none => false
  | some l => Map.has l key

/-- The number of entries `len(m)`; a nil map has none. -/
def MIMEMap.len (m : MIMEMap) : Nat :=
  match m with
  | none => 0
  | some l => l.length

/-- Modelled from the spec: the declaration of `Data` is not among the source
files; it is the bundle of the data model, with the three mappings
`representations` (field `Data`), `metadata` (field `Metadata`) and the optional
`transient` (field `Transient`). The zero value `Data{}` has three nil maps. -/
structure Data where
  Data : MIMEMap := none
  Metadata : MIMEMap := none
  Transient : MIMEMap := none
  deriving DecidableEq, Repr

/-! ## Media types -/

def MIMETypeHTML : String := "text/html"
def MIMETypeJavaScript : String := "application/javascript"
def MIMETypeJPEG : String := "image/jpeg"
def MIMETypeJSON : String := "application/json"
def MIMETypeLatex : String := "text/latex"
def MIMETypeMarkdown : String := "text/markdown"
def MIMETypePNG : String := "image/png"
def MIMETypePDF : String := "application/pdf"
def MIMETypeSVG : String := "image/svg+xml"
def MIMETypeText : String := "text/plain"

/-! ## Bundle builders -/

/-- The function `makeDataErr`: the error bundle of a non-nil error. -/
def makeDataErr (err : GoError) : Data :=
  { Data := some (Map.set (Map.set (Map.set (Map.set [] "ename" (Value.str "ERROR"))
      "evalue" (Value.str err.Error)) "traceback" Value.nil) "status" (Value.str "error")) }

/-- The function `MakeData`: the map literal with the primary entry, then the
plain-text entry when the media type is not plain text. -/
def MakeData (mimeType : String) (data : Value) : Data :=
  let d : Map := Map.set [] mimeType data
  if mimeType ≠ MIMETypeText then
    { Data := some (Map.set d MIMETypeText (Value.str (Sprint data))) }
  else
    { Data := some d }

/-- The function `MakeData3`: a map literal whose keys are evaluated and stored
in the order they are written, first the plain-text key, then `mimeType`. -/
def MakeData3 (mimeType : String) (plaintext : String) (data : Value) : Data :=
  { Data := some (Map.set (Map.set [] MIMETypeText (Value.str plaintext)) mimeType data) }

/-- The function `MIME`: wraps the two maps, the transient map is nil. -/
def MIME (data metadata : MIMEMap) : Data :=
  { Data := data, Metadata := metadata, Transient := none }

/-- The library function `strings.TrimLeft`: drops the leading characters that
occur in the cutset. -/
def TrimLeft (s cutset : String) : String :=
  ⟨s.data.dropWhile (fun c => cutset.data.contains c)⟩

/-- The library function `strings.TrimRight`: drops the trailing characters that
occur in the cutset. -/
def TrimRight (s cutset : String) : String :=
  ⟨s.data.rdropWhile (fun c => cutset.data.contains c)⟩

/-- The library function `strings.Trim`: drops the leading and the trailing
characters that occur in the cutset. -/
def Trim (s cutset : String) : String :=
  TrimLeft (TrimRight s cutset) cutset

def HTML (html : String) : Data := MakeData MIMETypeHTML (Value.str html)

def JavaScript (javascript : String) : Data := MakeData MIMETypeJavaScript (Value.str javascript)

def JPEG (jpeg : List Byte) : Data := MakeData MIMETypeJPEG (Value.bytes jpeg)

def JSON (json : Value) : Data := MakeData MIMETypeJSON json

/-- The function `Latex`: the second argument of `MakeData3` is the plain text,
the third is the value of the primary entry. -/
def Latex (latex : String) : Data :=
  MakeData3 MIMETypeLatex latex (Value.str ("$" ++ Trim latex "$" ++ "$"))

def Markdown (markdown : String) : Data := MakeData MIMETypeMarkdown (Value.str markdown)

/-- The function `Math`. -/
def Math (latex : String) : Data :=
  MakeData3 MIMETypeLatex latex (Value.str ("$$" ++ Trim latex "$" ++ "$$"))

def PDF (pdf : List Byte) : Data := MakeData MIMETypePDF (Value.bytes pdf)

def PNG (png : List Byte) : Data := MakeData MIMETypePNG (Value.bytes png)

def SVG (svg : String) : Data := MakeData MIMETypeSVG (Value.str svg)

/-! ## Content sniffing (`net/http`)

The fallback renderer calls the library function `http.DetectContentType`. It is
embedded here with the signature table of the Go library (`net/http/sniff.go`,
the algorithm of the WHATWG MIME Sniffing standard). -/

/-- The bytes of a string literal of the signature table: every character of the
literal stands for the byte of the same code. -/
def sigBytes (s : String) : List Byte := s.data.map Char.toNat

def sniffLen : Nat := 512

/-- The function `isWS`: tab, line feed, form feed, carriage return, blank. -/
def isWS (b : Byte) : Bool :=
  b == 0x09 || b == 0x0A || b == 0x0C || b == 0x0D || b == 0x20

/-- The function `isTT`: a tag-terminating byte, blank or `>`. -/
def isTT (b : Byte) : Bool :=
  b == 0x20 || b == 0x3E

/-- The kinds of signature of the table. -/
inductive sniffSig where
  | htmlSig (h : List Byte)
  | maskedSig (mask pat : List Byte) (skipWS : Bool) (ct : String)
  | exactSig (sig : List Byte) (ct : String)
  | mp4Sig
  | textSig
  deriving DecidableEq, Repr

/-- The method `match` of `htmlSig`: a case-insensitive tag after the leading
white space, followed by a tag-terminating byte. -/
def htmlSigMatch (h data : List Byte) (firstNonWS : Nat) : String :=
  let data := data.drop firstNonWS
  if data.length < h.length + 1 then ""
  else if (List.zip h data).all (fun p =>
      p.1 == (if 0x41 ≤ p.1 && p.1 ≤ 0x5A then p.2 &&& 0xDF else p.2))
      && isTT (data.getD h.length 0) then "text/html; charset=utf-8"
  else ""

/-- The method `match` of `maskedSig`. -/
def maskedSigMatch (mask pat : List Byte) (skipWS : Bool) (ct : String)
    (data : List Byte) (firstNonWS : Nat) : String :=
  let data := if skipWS then data.drop firstNonWS else data
  if pat.length ≠ mask.length then ""
  else if data.length < pat.length then ""
  else if (List.zip pat (List.zip data mask)).all (fun p => p.2.1 &&& p.2.2 == p.1) then ct
  else ""

/-- The method `match` of `exactSig`: `bytes.HasPrefix(data, sig)`. -/
def exactSigMatch (sig : List Byte) (ct : String) (data : List Byte) : String :=
  if sig.isPrefixOf data then ct else ""

/-- The method `match` of `mp4Sig`: the box size is the big-endian number of the
first four bytes; the brands are looked up at the offsets 8, 16, 20, ... below
the box size. -/
def mp4SigMatch (data : List Byte) : String :=
  if data.length < 12 then ""
  else
    let boxSize := ((data.getD 0 0 * 256 + data.getD 1 0) * 256 + data.getD 2 0) * 256
      + data.getD 3 0
    if data.length < boxSize || boxSize % 4 != 0 then ""
    else if (data.drop 4).take 4 != sigBytes "ftyp" then ""
    else if (List.range (boxSize / 4)).any (fun i =>
        2 ≤ i && i != 3 && (data.drop (4 * i)).take 3 == sigBytes "mp4") then "video/mp4"
    else ""

/-- The method `match` of `textSig`: no binary byte after the leading white
space. -/
def textSigMatch (data : List Byte) (firstNonWS : Nat) : String :=
  if (data.drop firstNonWS).any (fun b =>
      b ≤ 0x08 || b == 0x0B || (0x0E ≤ b && b ≤ 0x1A) || (0x1C ≤ b && b ≤ 0x1F)) then ""
  else "text/plain; charset=utf-8"

/-- The method `match` of a signature. -/
def sniffSig.match : sniffSig → List Byte → Nat → String
  | .htmlSig h, data, firstNonWS => htmlSigMatch h data firstNonWS
  | .maskedSig mask pat skipWS ct, data, firstNonWS =>
    maskedSigMatch mask pat skipWS ct data firstNonWS
  | .exactSig sig ct, data, _ => exactSigMatch sig ct data
  | .mp4Sig, data, _ => mp4SigMatch data
  | .textSig, data, firstNonWS => textSigMatch data firstNonWS

/-- The table `sniffSignatures`, in the order of the library. -/
def sniffSignatures : List sniffSig := [
  .htmlSig (sigBytes "<!DOCTYPE HTML"),
  .htmlSig (sigBytes "<HTML"),
  .htmlSig (sigBytes "<HEAD"),
  .htmlSig (sigBytes "<SCRIPT"),
  .htmlSig (sigBytes "<IFRAME"),
  .htmlSig (sigBytes "<H1"),
  .htmlSig (sigBytes "<DIV"),
  .htmlSig (sigBytes "<FONT"),
  .htmlSig (sigBytes "<TABLE"),
  .htmlSig (sigBytes "<A"),
  .htmlSig (sigBytes "<STYLE"),
  .htmlSig (sigBytes "<TITLE"),
  .htmlSig (sigBytes "<B"),
  .htmlSig (sigBytes "<BODY"),
  .htmlSig (sigBytes "<BR"),
  .htmlSig (sigBytes "<P"),
  .htmlSig (sigBytes "<!--"),
  .maskedSig (sigBytes "\xFF\xFF\xFF\xFF\xFF") (sigBytes "<?xml") true "text/xml; charset=utf-8",
  .exactSig (sigBytes "%PDF-") "application/pdf",
  .exactSig (sigBytes "%!PS-Adobe-") "application/postscript",
  .maskedSig (sigBytes "\xFF\xFF\x00\x00") (sigBytes "\xFE\xFF\x00\x00") false
    "text/plain; charset=utf-16be",
  .maskedSig (sigBytes "\xFF\xFF\x00\x00") (sigBytes "\xFF\xFE\x00\x00") false
    "text/plain; charset=utf-16le",
  .maskedSig (sigBytes "\xFF\xFF\xFF\x00") (sigBytes "\xEF\xBB\xBF\x00") false
    "text/plain; charset=utf-8",
  .exactSig (sigBytes "\x00\x00\x01\x00") "image/x-icon",
  .exactSig (sigBytes "\x00\x00\x02\x00") "image/x-icon",
  .exactSig (sigBytes "BM") "image/bmp",
  .exactSig (sigBytes "GIF87a") "image/gif",
  .exactSig (sigBytes "GIF89a") "image/gif",
  .maskedSig (sigBytes "\xFF\xFF\xFF\xFF\x00\x00\x00\x00\xFF\xFF\xFF\xFF\xFF\xFF")
    (sigBytes "RIFF\x00\x00\x00\x00WEBPVP") false "image/webp",
  .exactSig (sigBytes "\x89PNG\x0D\x0A\x1A\x0A") "image/png",
  .exactSig (sigBytes "\xFF\xD8\xFF") "image/jpeg",
  .maskedSig (sigBytes "\xFF\xFF\xFF\xFF") (sigBytes ".snd") false "audio/basic",
  .maskedSig (sigBytes "\xFF\xFF\xFF\xFF\x00\x00\x00\x00\xFF\xFF\xFF\xFF")
    (sigBytes "FORM\x00\x00\x00\x00AIFF") false "audio/aiff",
  .maskedSig (sigBytes "\xFF\xFF\xFF") (sigBytes "ID3") false "audio/mpeg",
  .maskedSig (sigBytes "\xFF\xFF\xFF\xFF\xFF") (sigBytes "OggS\x00") false "application/ogg",
  .maskedSig (sigBytes "\xFF\xFF\xFF\xFF\xFF\xFF\xFF\xFF") (sigBytes "MThd\x00\x00\x00\x06") false
    "audio/midi",
  .maskedSig (sigBytes "\xFF\xFF\xFF\xFF\x00\x00\x00\x00\xFF\xFF\xFF\xFF")
    (sigBytes "RIFF\x00\x00\x00\x00AVI ") false "video/avi",
  .maskedSig (sigBytes "\xFF\xFF\xFF\xFF\x00\x00\x00\x00\xFF\xFF\xFF\xFF")
    (sigBytes "RIFF\x00\x00\x00\x00WAVE") false "audio/wave",
  .mp4Sig,
  .exactSig (sigBytes "\x1A\x45\xDF\xA3") "video/webm",
  .maskedSig (List.replicate 34 0 ++ sigBytes "\xFF\xFF") (List.replicate 34 0 ++ sigBytes "LP")
    false "application/vnd.ms-fontobject",
  .exactSig (sigBytes "\x00\x01\x00\x00") "font/ttf",
  .exactSig (sigBytes "OTTO") "font/otf",
  .exactSig (sigBytes "ttcf") "font/collection",
  .exactSig (sigBytes "wOFF") "font/woff",
  .exactSig (sigBytes "wOF2") "font/woff2",
  .exactSig (sigBytes "\x1F\x8B\x08") "application/x-gzip",
  .exactSig (sigBytes "PK\x03\x04") "application/zip",
  .exactSig (sigBytes "Rar!\x1A\x07\x00") "application/x-rar-compressed",
  .exactSig (sigBytes "Rar!\x1A\x07\x01\x00") "application/x-rar-compressed",
  .exactSig (sigBytes "\x00\x61\x73\x6D") "application/wasm",
  .textSig]

/-- The loop of `DetectContentType` over the table: the content type of the
first signature that matches, the fallback type when none does. -/
def firstMatch : List sniffSig → List Byte → Nat → String
  | [], _, _ => "application/octet-stream"
  | sig :: rest, data, firstNonWS =>
    let ct := sig.match data firstNonWS
    if ct ≠ "" then ct else firstMatch rest data firstNonWS

/-- The library function `http.DetectContentType`: at most the first 512 bytes
are considered. -/
def DetectContentType (data : List Byte) : String :=
  let data := data.take sniffLen
  let firstNonWS := (data.takeWhile isWS).length
  firstMatch sniffSignatures data firstNonWS

/-! ## Dynamic values and their capabilities -/

/-- What the program observes of a value that implements `image.Image`.
Modelled from the spec: `encodePng` and `imageMetadata` are called in
`display.go` but are not among the source files; the image codec adapter encodes
the image to a binary media type, or fails, and derives the dimension metadata.
The three results of `encodePng` and the result of `imageMetadata` are taken as
given with the image. -/
structure ImageValue where
  encodePng : List Byte × String × Option GoError
  imageMetadata : MIMEMap
  deriving DecidableEq, Repr

/-- A dynamic value that is neither nil, a string nor a byte slice, as the
program observes it: the name of its type (`%T`), its `fmt.Sprint` form, and
for every interface that the program asserts, the result that the method of the
interface returns when the value implements it (`none` when it does not).
For `io.Reader` the result is what `ioutil.ReadAll` returns; for `io.WriterTo`,
the bytes written to the buffer and the error returned. The flag `stringKind`
tells whether the kind of the type is `string`, as for a named string type,
which `fmt.Sprint` looks at when it separates operands. -/
structure Object where
  typ : String
  text : String
  stringKind : Bool := false
  Read : Option (List Byte × Option GoError) := none
  WriteTo : Option (List Byte × Option GoError) := none
  Render : Option Data := none
  SimpleRender : Option MIMEMap := none
  HTML : Option String := none
  JavaScript : Option String := none
  JPEG : Option (List Byte) := none
  JSON : Option Value := none
  Latex : Option String := none
  Markdown : Option String := none
  PNG : Option (List Byte) := none
  PDF : Option (List Byte) := none
  SVG : Option String := none
  Image : Option ImageValue := none
  deriving DecidableEq, Repr

/-- An `interface{}` argument that the program inspects. -/
inductive Interface where
  | nil
  | str (s : String)
  | bytes (b : List Byte)
  | obj (o : Object)
  deriving DecidableEq, Repr

/-- The value as it is stored or printed. -/
def Interface.toValue : Interface → Value
  | .nil => Value.nil
  | .str s => Value.str s
  | .bytes b => Value.bytes b
  | .obj o => Value.other o.typ o.text

/-- The name of the dynamic type, as the verb `%T` prints it. -/
def Interface.typeName : Interface → String
  | .nil => "<nil>"
  | .str _ => "string"
  | .bytes _ => "[]uint8"
  | .obj o => o.typ

/-- The method set of the value: nil, strings and byte slices have no method. -/
def Interface.object? : Interface → Option Object
  | .obj o => some o
  | _ => none

/-- Modelled from the spec: `ensure` is called by the single-format entries of
`autoRenderers` but is not among the source files; its result is assigned to at
once, it is the map itself when it is allocated and a new empty map when it is
nil. -/
def ensure (bundle : MIMEMap) : Map :=
  match bundle with
  | none => []
  | some m => m

/-- Modelled from the spec: `merge` is called by the entries `Renderer`,
`SimpleRenderer` and `Image` but is not among the source files; the spec has the
entries of the accumulator kept and the new keys added. Without an entry to add,
the accumulator is returned as it is. -/
def merge (a b : MIMEMap) : MIMEMap :=
  match b with
  | none => a
  | some [] => a
  | some (e :: rest) =>
    some ((e :: rest).foldl (fun acc p => if Map.has acc p.1 then acc else Map.set acc p.1 p.2)
      (ensure a))

/-! ## The registry of auto-renderers -/

/-- The entry `"Renderer"` of `autoRenderers`. -/
def autoRenderers.Renderer (d : Data) (i : Interface) : Data :=
  match i.object?.bind Object.Render with
  | some x =>
    { Data := merge d.Data x.Data, Metadata := merge d.Metadata x.Metadata,
      Transient := merge d.Transient x.Transient }
  | none => d

/-- The entry `"SimpleRenderer"` of `autoRenderers`. -/
def autoRenderers.SimpleRenderer (d : Data) (i : Interface) : Data :=
  match i.object?.bind Object.SimpleRender with
  | some x => { d with Data := merge d.Data x }
  | none => d

/-- The entry `"HTMLer"` of `autoRenderers`. -/
def autoRenderers.HTMLer (d : Data) (i : Interface) : Data :=
  match i.object?.bind Object.HTML with
  | some r => { d with Data := some (Map.set (ensure d.Data) MIMETypeHTML (Value.str r)) }
  | none => d

/-- The entry `"JavaScripter"` of `autoRenderers`. -/
def autoRenderers.JavaScripter (d : Data) (i : Interface) : Data :=
  match i.object?.bind Object.JavaScript with
  | some r => { d with Data := some (Map.set (ensure d.Data) MIMETypeJavaScript (Value.str r)) }
  | none => d

/-- The entry `"JPEGer"` of `autoRenderers`. -/
def autoRenderers.JPEGer (d : Data) (i : Interface) : Data :=
  match i.object?.bind Object.JPEG with
  | some r => { d with Data := some (Map.set (ensure d.Data) MIMETypeJPEG (Value.bytes r)) }
  | none => d

/-- The entry `"JSONer"` of `autoRenderers`. -/
def autoRenderers.JSONer (d : Data) (i : Interface) : Data :=
  match i.object?.bind Object.JSON with
  | some r => { d with Data := some (Map.set (ensure d.Data) MIMETypeJSON r) }
  | none => d

/-- The entry `"Latexer"` of `autoRenderers`. -/
def autoRenderers.Latexer (d : Data) (i : Interface) : Data :=
  match i.object?.bind Object.Latex with
  | some r => { d with Data := some (Map.set (ensure d.Data) MIMETypeLatex (Value.str r)) }
  | none => d

/-- The entry `"Markdowner"` of `autoRenderers`. -/
def autoRenderers.Markdowner (d : Data) (i : Interface) : Data :=
  match i.object?.bind Object.Markdown with
  | some r => { d with Data := some (Map.set (ensure d.Data) MIMETypeMarkdown (Value.str r)) }
  | none => d

/-- The entry `"PNGer"` of `autoRenderers`. -/
def autoRenderers.PNGer (d : Data) (i : Interface) : Data :=
  match i.object?.bind Object.PNG with
  | some r => { d with Data := some (Map.set (ensure d.Data) MIMETypePNG (Value.bytes r)) }
  | none => d

/-- The entry `"PDFer"` of `autoRenderers`. -/
def autoRenderers.PDFer (d : Data) (i : Interface) : Data :=
  match i.object?.bind Object.PDF with
  | some r => { d with Data := some (Map.set (ensure d.Data) MIMETypePDF (Value.bytes r)) }
  | none => d

/-- The entry `"SVGer"` of `autoRenderers`. -/
def autoRenderers.SVGer (d : Data) (i : Interface) : Data :=
  match i.object?.bind Object.SVG with
  | some r => { d with Data := some (Map.set (ensure d.Data) MIMETypeSVG (Value.str r)) }
  | none => d

/-- The entry `"Image"` of `autoRenderers`. -/
def autoRenderers.Image (d : Data) (i : Interface) : Data :=
  match i.object?.bind Object.Image with
  | some r =>
    match r.encodePng with
    | (_, _, some err) => makeDataErr err
    | (b, mimeType, none) =>
      { d with
        Data := some (Map.set (ensure d.Data) mimeType (Value.bytes b)),
        Metadata := merge d.Metadata r.imageMetadata }
  | none => d

/-- The map `autoRenderers`, from the name of a capability to its function. -/
def autoRenderers : List (String × (Data → Interface → Data)) := [
  ("Renderer", autoRenderers.Renderer),
  ("SimpleRenderer", autoRenderers.SimpleRenderer),
  ("HTMLer", autoRenderers.HTMLer),
  ("JavaScripter", autoRenderers.JavaScripter),
  ("JPEGer", autoRenderers.JPEGer),
  ("JSONer", autoRenderers.JSONer),
  ("Latexer", autoRenderers.Latexer),
  ("Markdowner", autoRenderers.Markdowner),
  ("PNGer", autoRenderers.PNGer),
  ("PDFer", autoRenderers.PDFer),
  ("SVGer", autoRenderers.SVGer),
  ("Image", autoRenderers.Image)]

/-! ## The fallback renderer -/

/-- The function `fillDefaults`. The comparison `data.Data[MIMETypeText] == ""`
compares an `interface{}` with a string: it holds when the entry is the empty
string, and not when the key is absent, where the index expression gives nil. -/
def fillDefaults (data : Data) (arg : Value) (s : String) (b : List Byte) (mimeType : String)
    (err : Option GoError) : Data :=
  match err with
  | some e => makeDataErr e
  | none =>
    let m0 : Map := match data.Data with
      | none => []
      | some m => m
    let m1 : Map := if s ≠ "" ∧ mimeType ≠ "" then Map.set m0 mimeType (Value.str s) else m0
    let m2 : Map :=
      if Map.get m1 MIMETypeText = Value.str "" then
        Map.set m1 MIMETypeText (Value.str (if s = "" then Sprint arg else s))
      else m1
    let m3 : Map :=
      if b ≠ [] then
        let mimeType := if mimeType = "" then DetectContentType b else mimeType
        if mimeType ≠ "" ∧ mimeType ≠ MIMETypeText then Map.set m2 mimeType (Value.bytes b)
        else m2
      else m2
    { data with Data := some m3 }

/-- The function `render`: the type switch tries `string`, `[]byte`,
`io.Reader` and `io.WriterTo` in this order and panics otherwise. The error
that `WriteTo` returns is dropped. -/
def render (mimeType : String) (data : Interface) : Except GoError Data :=
  match data with
  | .str s => .ok (fillDefaults {} data.toValue s [] mimeType none)
  | .bytes b => .ok (fillDefaults {} data.toValue "" b mimeType none)
  | .nil => .error ⟨"unsupported type, cannot render: " ++ data.typeName⟩
  | .obj o =>
    match o.Read with
    | some (b, err) => .ok (fillDefaults {} data.toValue "" b mimeType err)
    | none =>
      match o.WriteTo with
      | some (b, _) => .ok (fillDefaults {} data.toValue "" b mimeType none)
      | none => .error ⟨"unsupported type, cannot render: " ++ data.typeName⟩

/-- The function `Any`. -/
def Any (mimeType : String) (data : Interface) : Except GoError Data :=
  render mimeType data

/-- The function `Auto`: same as `Any` with the empty media type. -/
def Auto (data : Interface) : Except GoError Data :=
  render "" data

deriving instance DecidableEq for Except

/-- Whether the type switch of `render` has a case for the value: a `string`, a
`[]byte`, an `io.Reader` or an `io.WriterTo`. -/
def Interface.supported : Interface → Bool
  | .nil => false
  | .str _ => true
  | .bytes _ => true
  | .obj o => o.Read.isSome || o.WriteTo.isSome

/-- Whether `fmt.Sprint` counts the operand as a string: it is not nil and the
kind of its type is `string`. -/
def Interface.isString : Interface → Bool
  | .str _ => true
  | .obj o => o.stringKind
  | _ => false

/-- The library function `fmt.Sprint` on a list of operands: the operands are
printed one after the other, with a blank between two operands when neither is
a string. -/
def SprintAll : List Interface → String
  | [] => ""
  | [x] => Sprint x.toValue
  | x :: y :: rest =>
    Sprint x.toValue ++ (if !x.isString && !y.isString then " " else "") ++ SprintAll (y :: rest)

/-- The method `autoRenderResults` of the kernel; the receiver is not used. -/
def autoRenderResults (vals : List Interface) : Data :=
  MakeData MIMETypeText (Value.str (SprintAll vals))

/-- The names of the nine single-format capabilities in `autoRenderers`. -/
def singleFormatNames : List String :=
  ["HTMLer", "JavaScripter", "JPEGer", "JSONer", "Latexer", "Markdowner", "PNGer", "PDFer", "SVGer"]

/-- The media type that the entry of each single-format capability assigns. -/
def singleFormatKeys : List (String × String) := [
  ("HTMLer", MIMETypeHTML),
  ("JavaScripter", MIMETypeJavaScript),
  ("JPEGer", MIMETypeJPEG),
  ("JSONer", MIMETypeJSON),
  ("Latexer", MIMETypeLatex),
  ("Markdowner", MIMETypeMarkdown),
  ("PNGer", MIMETypePNG),
  ("PDFer", MIMETypePDF),
  ("SVGer", MIMETypeSVG)]

/-- The common shape of the single-format entries: when the capability gives the
value `r`, it is assigned under `key` in the data map, which is allocated when
it is nil; otherwise the accumulator is returned as it is. -/
def writeIf (key : String) (r : Option Value) (d : Data) : Data :=
  match r with
  | some v => { d with Data := some (Map.set (ensure d.Data) key v) }
  | none => d

/-- Two possibly nil maps have equal content: both are nil or both allocated, and
every key has an entry in both or in none, with the same value; the order of the
entries does not count. -/
def MIMEMap.sameContent (a b : MIMEMap) : Prop :=
  a.isSome = b.isSome ∧ ∀ k, a.has k = b.has k ∧ a.get k = b.get k

/-- Two bundles have equal content: their data, metadata and transient maps
have. -/
def Data.sameContent (x y : Gopyter.Data) : Prop :=
  x.Data.sameContent y.Data ∧ x.Metadata.sameContent y.Metadata
    ∧ x.Transient.sameContent y.Transient

/-- The string of `n` dollar signs. -/
def dollars (n : Nat) : String := ⟨List.replicate n '$'⟩

/-- The media type that `fillDefaults` uses for the bytes `b`: the given one, or
the sniffed one when none is given. -/
def effectiveType (mimeType : String) (b : List Byte) : String :=
  if mimeType = "" then DetectContentType b else mimeType

/-- The eight bytes that start a PNG file. -/
def pngMagic : List Byte := [0x89, 0x50, 0x4E, 0x47, 0x0D, 0x0A, 0x1A, 0x0A]

/-- The step `f` on the accumulator `d` and the argument `i` writes the value `v`
under `key`, whatever was stored there, and changes nothing else: afterwards
`key` has an entry, with the value `v`; every other key has an entry exactly
when it had one before, with the same value; the map has one entry more when
`key` had none and as many as before otherwise; the metadata and the transient
map stay. -/
def Overwrites (f : Data → Interface → Data) (key : String) (d : Data) (i : Interface)
    (v : Value) : Prop :=
  (f d i).Data.get key = v
  ∧ (f d i).Data.has key = true
  ∧ (∀ k, k ≠ key →
      (f d i).Data.get k = d.Data.get k ∧ (f d i).Data.has k = d.Data.has k)
  ∧ (f d i).Data.len = (if d.Data.has key = true then d.Data.len else d.Data.len + 1)
  ∧ (f d i).Metadata = d.Metadata
  ∧ (f d i).Transient = d.Transient

/-! ## Properties of the bundle builders -/

theorem Map.get_set_self (m : Map) (key : String) (v : Value) :
    Map.get (Map.set m key v) key = v := by
  induction m with
  | nil => simp [Map.set, Map.get]
  | cons e rest ih =>
    obtain ⟨k, w⟩ := e
    by_cases h : k = key
    · simp [Map.set, Map.get, h]
    · simp [Map.set, Map.get, h, ih]

theorem Map.get_set_other (m : Map) (key k : String) (v : Value) (hk : k ≠ key) :
    Map.get (Map.set m key v) k = Map.get m k := by
  induction m with
  | nil => simp [Map.set, Map.get, Ne.symm hk]
  | cons e rest ih =>
    obtain ⟨k', w⟩ := e
    by_cases h : k' = key
    · subst h
      simp [Map.set, Map.get, Ne.symm hk]
    · by_cases h2 : k' = k
      · subst h2
        simp [Map.set, Map.get, hk]
      · simp [Map.set, Map.get, h, h2, ih]

theorem Map.has_set_self (m : Map) (key : String) (v : Value) :
    Map.has (Map.set m key v) key = true := by
  induction m with
  | nil => simp [Map.set, Map.has]
  | cons e rest ih =>
    obtain ⟨k, w⟩ := e
    by_cases h : k = key
    · simp [Map.set, Map.has, h]
    · simp [Map.set, Map.has, h, ih]

theorem Map.has_set_other (m : Map) (key k : String) (v : Value) (hk : k ≠ key) :
    Map.has (Map.set m key v) k = Map.has m k := by
  induction m with
  | nil => simp [Map.set, Map.has, Ne.symm hk]
  | cons e rest ih =>
    obtain ⟨k', w⟩ := e
    by_cases h : k' = key
    · subst h
      simp [Map.set, Map.has, Ne.symm hk]
    · by_cases h2 : k' = k
      · subst h2
        simp [Map.set, Map.has, hk]
      · simp [Map.set, Map.has, h, h2, ih]

/-- C1: for a media type `m` other than `text/plain` and any value `v`, the data
map of `MakeData m v` is the two-entry map with `m -> v` and
`text/plain -> fmt.Sprint v`: both entries can be read back and no other key has
an entry. -/
theorem MakeData_non_text (m : String) (v : Value) (hm : m ≠ MIMETypeText) :
    (MakeData m v).Data = some [(m, v), (MIMETypeText, Value.str (Sprint v))]
    ∧ (MakeData m v).Data.get m = v
    ∧ (MakeData m v).Data.get MIMETypeText = Value.str (Sprint v)
    ∧ ∀ k, (MakeData m v).Data.has k = true ↔ (k = m ∨ k = MIMETypeText) := by
  have hd : (MakeData m v).Data = some [(m, v), (MIMETypeText, Value.str (Sprint v))] := by
    simp [MakeData, Map.set, hm]
  refine ⟨hd, ?_, ?_, ?_⟩
  · simp [hd, MIMEMap.get, Map.get]
  · simp [hd, MIMEMap.get, Map.get, hm]
  · intro k
    simp only [hd, MIMEMap.has, Map.has]
    by_cases h1 : m = k
    · simp [h1]
    · by_cases h2 : MIMETypeText = k
      · simp [h1, h2]
      · simp [h1, h2, Ne.symm h1, Ne.symm h2]

theorem MakeData_non_text_witness :
    "text/html" ≠ MIMETypeText
    ∧ (MakeData "text/html" (Value.bytes [1, 2])).Data
      = some [("text/html", Value.bytes [1, 2]), (MIMETypeText, Value.str "[1 2]")] :=
  ⟨by decide, (MakeData_non_text "text/html" (Value.bytes [1, 2]) (by decide)).1⟩

/-- C2: for any value `v`, the data map of `MakeData "text/plain" v` is the
one-entry map `text/plain -> v`: the value is stored as given and no second
entry is added. -/
theorem MakeData_text (v : Value) :
    (MakeData MIMETypeText v).Data = some [(MIMETypeText, v)]
    ∧ (MakeData MIMETypeText v).Data.get MIMETypeText = v
    ∧ (MakeData MIMETypeText v).Data.len = 1
    ∧ ∀ k, (MakeData MIMETypeText v).Data.has k = true ↔ k = MIMETypeText := by
  have hd : (MakeData MIMETypeText v).Data = some [(MIMETypeText, v)] := by
    simp [MakeData, Map.set]
  refine ⟨hd, ?_, ?_, ?_⟩
  · simp [hd, MIMEMap.get, Map.get]
  · simp [hd, MIMEMap.len]
  · intro k
    simp only [hd, MIMEMap.has, Map.has]
    by_cases h : MIMETypeText = k
    · simp [h]
    · simp [h, Ne.symm h]

theorem MakeData3_get_primary (m p : String) (v : Value) :
    (MakeData3 m p v).Data.get m = v := by
  simp [MakeData3, MIMEMap.get, Map.get_set_self]

theorem MakeData3_data_non_text (m p : String) (v : Value) (hm : m ≠ MIMETypeText) :
    (MakeData3 m p v).Data = some [(MIMETypeText, Value.str p), (m, v)] := by
  simp [MakeData3, Map.set, Ne.symm hm]

theorem MakeData3_get_text (m p : String) (v : Value) (hm : m ≠ MIMETypeText) :
    (MakeData3 m p v).Data.get MIMETypeText = Value.str p := by
  simp [MakeData3_data_non_text m p v hm, MIMEMap.get, Map.get]

/-- C3, as stated, fails: with the media type `text/plain` itself, the plain text
`"a"` and the value `"b"`, the map literal of `MakeData3` stores the key
`text/plain` twice and the value written last stays, so the plain-text entry is
`"b"` and not the supplied `"a"`. -/
theorem MakeData3_text_counterexample :
    ¬ ((MakeData3 "text/plain" "a" (Value.str "b")).Data.get "text/plain" = Value.str "b"
       ∧ (MakeData3 "text/plain" "a" (Value.str "b")).Data.get MIMETypeText = Value.str "a") := by
  decide

/-- C3, amended: the data map of `MakeData3 m p v` always holds the primary entry
`m -> v`; when `m` is not `text/plain` it is the two-entry map with
`text/plain -> p` and `m -> v`; when `m` is `text/plain` it is the one-entry map
`text/plain -> v`. -/
theorem MakeData3_entries (m p : String) (v : Value) :
    (MakeData3 m p v).Data.get m = v
    ∧ (m ≠ MIMETypeText →
        (MakeData3 m p v).Data = some [(MIMETypeText, Value.str p), (m, v)]
        ∧ (MakeData3 m p v).Data.get MIMETypeText = Value.str p)
    ∧ (m = MIMETypeText → (MakeData3 m p v).Data = some [(MIMETypeText, v)]) := by
  refine ⟨MakeData3_get_primary m p v, ?_, ?_⟩
  · intro hm
    exact ⟨MakeData3_data_non_text m p v hm, MakeData3_get_text m p v hm⟩
  · intro hm
    subst hm
    simp [MakeData3, Map.set]

theorem MakeData3_entries_witness :
    "text/latex" ≠ MIMETypeText
    ∧ (MakeData3 "text/latex" "x" (Value.str "$x$")).Data
      = some [(MIMETypeText, Value.str "x"), ("text/latex", Value.str "$x$")] :=
  ⟨by decide, ((MakeData3_entries "text/latex" "x" (Value.str "$x$")).2.1 (by decide)).1⟩

/-- C4: the error bundle of an error `err` has exactly the four entries
`ename -> "ERROR"`, `evalue -> err.Error()`, `traceback -> nil` and
`status -> "error"`, no other key has an entry, and the metadata and transient
maps are nil. `makeDataErr` is a total function. -/
theorem makeDataErr_shape (err : GoError) :
    (makeDataErr err).Data = some [("ename", Value.str "ERROR"), ("evalue", Value.str err.Error),
      ("traceback", Value.nil), ("status", Value.str "error")]
    ∧ (∀ k, (makeDataErr err).Data.has k = true
        ↔ (k = "ename" ∨ k = "evalue" ∨ k = "traceback" ∨ k = "status"))
    ∧ (makeDataErr err).Metadata = none ∧ (makeDataErr err).Transient = none := by
  have hd : (makeDataErr err).Data = some [("ename", Value.str "ERROR"),
      ("evalue", Value.str err.Error), ("traceback", Value.nil),
      ("status", Value.str "error")] := by
    simp [makeDataErr, Map.set]
  refine ⟨hd, ?_, rfl, rfl⟩
  intro k
  simp only [hd, MIMEMap.has, Map.has]
  by_cases h1 : "ename" = k
  · simp [h1]
  · by_cases h2 : "evalue" = k
    · simp [h1, h2]
    · by_cases h3 : "traceback" = k
      · simp [h1, h2, h3]
      · by_cases h4 : "status" = k
        · simp [h1, h2, h3, h4]
        · simp [h1, h2, h3, h4, Ne.symm h1, Ne.symm h2, Ne.symm h3, Ne.symm h4]

/-! ## Properties of the markup builders -/

theorem Trim_dollar_eq_self (s : String) (hfirst : s.data.head? ≠ some '$')
    (hlast : s.data.getLast? ≠ some '$') : Trim s "$" = s := by
  have hcut : "$".data = ['$'] := rfl
  have hr : TrimRight s "$" = s := by
    have : s.data.rdropWhile (fun c => "$".data.contains c) = s.data := by
      rw [List.rdropWhile_eq_self_iff]
      intro hl
      rw [List.getLast?_eq_getLast _ hl] at hlast
      have hne : s.data.getLast hl ≠ '$' := by simpa using hlast
      simp [hcut, hne]
    unfold TrimRight
    rw [this]
  have hl : TrimLeft s "$" = s := by
    have : s.data.dropWhile (fun c => "$".data.contains c) = s.data := by
      cases hs : s.data with
      | nil => rfl
      | cons a t =>
        rw [hs] at hfirst
        have hne : a ≠ '$' := by simpa using hfirst
        simp [List.dropWhile, hcut, hne]
    unfold TrimLeft
    rw [this]
  simp [Trim, hr, hl]

/-- C5, as stated, fails at `"x^2"`: `Latex` passes the input as the plain text
and the delimited string as the value of the primary entry, so the entry
`text/latex` is `"$x^2$"` and the entry `text/plain` is `"x^2"`, the other way
round from the claim. -/
theorem Latex_counterexample :
    ¬ ((Latex "x^2").Data.get "text/latex" = Value.str "x^2"
       ∧ (Latex "x^2").Data.get "text/plain" = Value.str ("$" ++ "x^2" ++ "$")) := by
  decide

/-- C5, amended: for a string `s` that neither starts nor ends with `$`, the
entry `text/latex` of `Latex s` is `"$" + s + "$"` and the entry `text/plain`
is `s` itself. -/
theorem Latex_entries (s : String) (hfirst : s.data.head? ≠ some '$')
    (hlast : s.data.getLast? ≠ some '$') :
    (Latex s).Data.get "text/latex" = Value.str ("$" ++ s ++ "$")
    ∧ (Latex s).Data.get "text/plain" = Value.str s := by
  have hne : MIMETypeLatex ≠ MIMETypeText := by decide
  unfold Latex
  rw [Trim_dollar_eq_self s hfirst hlast]
  exact ⟨MakeData3_get_primary MIMETypeLatex s _, MakeData3_get_text MIMETypeLatex s _ hne⟩

theorem Latex_entries_witness :
    "x^2".data.head? ≠ some '$' ∧ "x^2".data.getLast? ≠ some '$'
    ∧ (Latex "x^2").Data.get "text/latex" = Value.str ("$" ++ "x^2" ++ "$")
    ∧ (Latex "x^2").Data.get "text/plain" = Value.str "x^2" :=
  ⟨by decide, by decide, Latex_entries "x^2" (by decide) (by decide)⟩

/-- C6: for a string `s` that neither starts nor ends with `$`, the entry
`text/latex` of `Math s` is `"$$" + s + "$$"`. -/
theorem Math_latex_entry (s : String) (hfirst : s.data.head? ≠ some '$')
    (hlast : s.data.getLast? ≠ some '$') :
    (Math s).Data.get "text/latex" = Value.str ("$$" ++ s ++ "$$") := by
  unfold Math
  rw [Trim_dollar_eq_self s hfirst hlast]
  exact MakeData3_get_primary MIMETypeLatex s _

theorem Math_latex_entry_witness :
    "x^2".data.head? ≠ some '$' ∧ "x^2".data.getLast? ≠ some '$'
    ∧ (Math "x^2").Data.get "text/latex" = Value.str "$$x^2$$" :=
  ⟨by decide, by decide, Math_latex_entry "x^2" (by decide) (by decide)⟩

/-! ## Properties of the single-format entries -/

theorem get_ensure (m : MIMEMap) (k : String) : Map.get (ensure m) k = m.get k := by
  cases m <;> simp [ensure, MIMEMap.get, Map.get]

theorem get_write_self (m : MIMEMap) (key : String) (v : Value) :
    MIMEMap.get (some (Map.set (ensure m) key v)) key = v := by
  simp [MIMEMap.get, Map.get_set_self]

theorem get_write_other (m : MIMEMap) (key k : String) (v : Value) (hk : k ≠ key) :
    MIMEMap.get (some (Map.set (ensure m) key v)) k = m.get k := by
  simp [MIMEMap.get, Map.get_set_other _ _ _ _ hk, get_ensure]

theorem has_ensure (m : MIMEMap) (k : String) : Map.has (ensure m) k = m.has k := by
  cases m <;> simp [ensure, MIMEMap.has, Map.has]

theorem length_ensure (m : MIMEMap) : (ensure m).length = m.len := by
  cases m <;> simp [ensure, MIMEMap.len]

theorem Map.length_set (m : Map) (key : String) (v : Value) :
    (Map.set m key v).length = (if Map.has m key = true then m.length else m.length + 1) := by
  induction m with
  | nil => simp [Map.set, Map.has]
  | cons e rest ih =>
    obtain ⟨k, w⟩ := e
    by_cases h : k = key
    · simp [Map.set, Map.has, h]
    · simp only [Map.set, Map.has, h, if_false, List.length_cons, ih]
      split <;> rfl

theorem overwrites_of_assignment (f : Data → Interface → Data) (key : String) (d : Data)
    (i : Interface) (v : Value)
    (h : f d i = { d with Data := some (Map.set (ensure d.Data) key v) }) :
    Overwrites f key d i v := by
  unfold Overwrites
  rw [h]
  refine ⟨get_write_self _ _ _, ?_, ?_, ?_, rfl, rfl⟩
  · simp [MIMEMap.has, Map.has_set_self]
  · intro k hk
    refine ⟨get_write_other _ _ _ _ hk, ?_⟩
    simp [MIMEMap.has, Map.has_set_other _ _ _ _ hk, has_ensure]
  · simp only [MIMEMap.len, Map.length_set, has_ensure, length_ensure]

/-- C7, as stated, fails: on an accumulator in which `text/html` is already `"x"`
(as the `Render` method of the value sets it) and a value whose `HTML` method
returns `"y"`, the entry `"HTMLer"` assigns `"y"` to `text/html`; the earlier
value is not kept. -/
theorem HTMLer_counterexample :
    ¬ ((autoRenderers.HTMLer { Data := some [("text/html", Value.str "x")] }
          (Interface.obj {
            typ := "page", text := "page",
            Render := some { Data := some [("text/html", Value.str "x")] },
            HTML := some "y" })).Data.get "text/html" = Value.str "x") := by
  decide

/-- C7, amended: for every accumulator `d` and every value, each of the nine
single-format entries whose capability the value satisfies assigns the result of
the capability's method to its reserved key, whatever the accumulator held under
that key (so an earlier value `x` stays only when the method returns `x`), and
leaves everything else as it was: no other key gets or loses its entry or changes
its value, no entry is added besides the one of the reserved key, and the
metadata and the transient map stay. -/
theorem singleFormat_overwrites (d : Data) (o : Object) :
    (∀ r, o.HTML = some r →
      Overwrites autoRenderers.HTMLer MIMETypeHTML d (Interface.obj o) (Value.str r))
    ∧ (∀ r, o.JavaScript = some r →
      Overwrites autoRenderers.JavaScripter MIMETypeJavaScript d (Interface.obj o) (Value.str r))
    ∧ (∀ r, o.JPEG = some r →
      Overwrites autoRenderers.JPEGer MIMETypeJPEG d (Interface.obj o) (Value.bytes r))
    ∧ (∀ r, o.JSON = some r →
      Overwrites autoRenderers.JSONer MIMETypeJSON d (Interface.obj o) r)
    ∧ (∀ r, o.Latex = some r →
      Overwrites autoRenderers.Latexer MIMETypeLatex d (Interface.obj o) (Value.str r))
    ∧ (∀ r, o.Markdown = some r →
      Overwrites autoRenderers.Markdowner MIMETypeMarkdown d (Interface.obj o) (Value.str r))
    ∧ (∀ r, o.PNG = some r →
      Overwrites autoRenderers.PNGer MIMETypePNG d (Interface.obj o) (Value.bytes r))
    ∧ (∀ r, o.PDF = some r →
      Overwrites autoRenderers.PDFer MIMETypePDF d (Interface.obj o) (Value.bytes r))
    ∧ (∀ r, o.SVG = some r →
      Overwrites autoRenderers.SVGer MIMETypeSVG d (Interface.obj o) (Value.str r)) := by
  refine ⟨?_, ?_, ?_, ?_, ?_, ?_, ?_, ?_, ?_⟩
  · intro r h
    apply overwrites_of_assignment
    simp [autoRenderers.HTMLer, Interface.object?, h]
  · intro r h
    apply overwrites_of_assignment
    simp [autoRenderers.JavaScripter, Interface.object?, h]
  · intro r h
    apply overwrites_of_assignment
    simp [autoRenderers.JPEGer, Interface.object?, h]
  · intro r h
    apply overwrites_of_assignment
    simp [autoRenderers.JSONer, Interface.object?, h]
  · intro r h
    apply overwrites_of_assignment
    simp [autoRenderers.Latexer, Interface.object?, h]
  · intro r h
    apply overwrites_of_assignment
    simp [autoRenderers.Markdowner, Interface.object?, h]
  · intro r h
    apply overwrites_of_assignment
    simp [autoRenderers.PNGer, Interface.object?, h]
  · intro r h
    apply overwrites_of_assignment
    simp [autoRenderers.PDFer, Interface.object?, h]
  · intro r h
    apply overwrites_of_assignment
    simp [autoRenderers.SVGer, Interface.object?, h]

theorem singleFormat_overwrites_witness :
    (autoRenderers.HTMLer { Data := some [("text/html", Value.str "x")] }
        (Interface.obj { typ := "page", text := "page", HTML := some "y" })).Data.get MIMETypeHTML
      = Value.str "y" :=
  ((singleFormat_overwrites { Data := some [("text/html", Value.str "x")] }
      { typ := "page", text := "page", HTML := some "y" }).1 "y" rfl).1

/-! ## Properties of the fallback renderer -/

theorem pngMagic_eq : sigBytes "\x89PNG\x0D\x0A\x1A\x0A" = pngMagic := by decide

theorem DetectContentType_png (rest : List Byte) :
    DetectContentType (pngMagic ++ rest) = "image/png" := by
  have h1 : (137 : Nat) &&& 255 = 137 := by decide
  have h2 : (80 : Nat) &&& 255 = 80 := by decide
  simp [DetectContentType, pngMagic, sniffLen, List.takeWhile, isWS, sniffSignatures, firstMatch,
    sniffSig.match, htmlSigMatch, maskedSigMatch, exactSigMatch, sigBytes, isTT, h1, h2]

theorem Auto_png_general (rest : List Byte) :
    Auto (Interface.bytes (pngMagic ++ rest))
      = Except.ok { Data := some [(MIMETypePNG, Value.bytes (pngMagic ++ rest))] } := by
  have hne : pngMagic ++ rest ≠ [] := by simp [pngMagic]
  have hd := DetectContentType_png rest
  simp [Auto, render, fillDefaults, Interface.toValue, Map.get, Map.set, hne, hd, MIMETypeText,
    MIMETypePNG]

theorem Auto_string_general (s : String) :
    Auto (Interface.str s) = Except.ok { Data := some [] } := by
  simp [Auto, render, fillDefaults, Map.get]

theorem Any_string_general (m s : String) (hs : s ≠ "") (hm : m ≠ "") (hmt : m ≠ MIMETypeText) :
    Any m (Interface.str s) = Except.ok { Data := some [(m, Value.str s)] } := by
  simp [Any, render, fillDefaults, Map.get, Map.set, hs, hm, hmt]

/-- C8, evaluated on the code: for the eight magic bytes of PNG and no media type,
`Auto` returns the bundle whose data map has the single entry
`image/png -> b`. The check that should add the plain-text entry compares the
absent entry, which reads as nil, with the empty string and never holds, so no
bundle with `text/plain -> fmt.Sprint b` is returned. -/
theorem Auto_png_no_plain_text :
    Auto (Interface.bytes pngMagic)
      = Except.ok { Data := some [("image/png", Value.bytes pngMagic)] }
    ∧ ¬ ∃ d, Auto (Interface.bytes pngMagic) = Except.ok d
        ∧ d.Data.get "text/plain" = Value.str (Sprint (Value.bytes pngMagic)) := by
  have h : Auto (Interface.bytes pngMagic)
      = Except.ok { Data := some [("image/png", Value.bytes pngMagic)] } := by decide
  refine ⟨h, ?_⟩
  rintro ⟨d, hd, hget⟩
  rw [h] at hd
  injection hd with hd
  subst hd
  revert hget
  decide

/-- C9, evaluated on the code: for the string `"hello"` and no media type, `Auto`
returns the bundle whose data map is allocated and empty: the entry
`text/plain -> "hello"` is not there and the map has no entry at all. -/
theorem Auto_string_empty :
    Auto (Interface.str "hello") = Except.ok { Data := some [] }
    ∧ ¬ ∃ d, Auto (Interface.str "hello") = Except.ok d
        ∧ (d.Data.get "text/plain" = Value.str "hello" ∨ d.Data.len ≠ 0) := by
  have h : Auto (Interface.str "hello") = Except.ok { Data := some [] } := by decide
  refine ⟨h, ?_⟩
  rintro ⟨d, hd, hget⟩
  rw [h] at hd
  injection hd with hd
  subst hd
  revert hget
  decide

/-- C10, evaluated on the code: for the string `"hello"` and the media type
`text/html`, `Any` returns the bundle whose data map has the single entry
`text/html -> "hello"`: the explicit entry is there, an entry for `text/plain`
is not. -/
theorem Any_string_no_plain_text :
    Any "text/html" (Interface.str "hello")
      = Except.ok { Data := some [("text/html", Value.str "hello")] }
    ∧ ¬ ∃ d, Any "text/html" (Interface.str "hello") = Except.ok d
        ∧ d.Data.has "text/plain" = true := by
  have h : Any "text/html" (Interface.str "hello")
      = Except.ok { Data := some [("text/html", Value.str "hello")] } := by decide
  refine ⟨h, ?_⟩
  rintro ⟨d, hd, hget⟩
  rw [h] at hd
  injection hd with hd
  subst hd
  revert hget
  decide

/-! ## Properties of `render` on the shapes of its input -/

theorem render_error_of_unsupported (m : String) (x : Interface) (h : x.supported = false) :
    render m x = Except.error ⟨"unsupported type, cannot render: " ++ x.typeName⟩ := by
  cases x with
  | nil => rfl
  | str s => simp [Interface.supported] at h
  | bytes b => simp [Interface.supported] at h
  | obj o =>
    cases hr : o.Read with
    | some p => simp [Interface.supported, hr] at h
    | none =>
      cases hw : o.WriteTo with
      | some p => simp [Interface.supported, hr, hw] at h
      | none => simp [render, hr, hw]

theorem render_ok_of_supported (m : String) (x : Interface) (h : x.supported = true) :
    ∃ d, render m x = Except.ok d := by
  cases x with
  | nil => simp [Interface.supported] at h
  | str s => exact ⟨_, rfl⟩
  | bytes b => exact ⟨_, rfl⟩
  | obj o =>
    cases hr : o.Read with
    | some p =>
      obtain ⟨b, err⟩ := p
      refine ⟨fillDefaults {} (Interface.obj o).toValue "" b m err, ?_⟩
      simp [render, hr]
    | none =>
      cases hw : o.WriteTo with
      | some p =>
        obtain ⟨b, err⟩ := p
        refine ⟨fillDefaults {} (Interface.obj o).toValue "" b m none, ?_⟩
        simp [render, hr, hw]
      | none => simp [Interface.supported, hr, hw] at h

/-- C11: `render m x` fails with the unsupported-type failure exactly when `x` is
none of a string, a byte slice, an `io.Reader` and an `io.WriterTo`; for a value
of one of the four shapes it returns a bundle; a failure carries the message with
the type of the value and no bundle is returned with it. `Any` and `Auto` are
`render`. -/
theorem render_unsupported_iff (m : String) (x : Interface) :
    ((∃ e, render m x = Except.error e) ↔ x.supported = false)
    ∧ (x.supported = true → ∃ d, render m x = Except.ok d)
    ∧ (x.supported = false →
        render m x = Except.error ⟨"unsupported type, cannot render: " ++ x.typeName⟩
        ∧ ¬ ∃ d, render m x = Except.ok d)
    ∧ Any m x = render m x ∧ Auto x = render "" x := by
  refine ⟨⟨?_, ?_⟩, render_ok_of_supported m x, ?_, rfl, rfl⟩
  · rintro ⟨e, he⟩
    cases hs : x.supported with
    | false => rfl
    | true =>
      obtain ⟨d, hd⟩ := render_ok_of_supported m x hs
      rw [hd] at he
      cases he
  · intro h
    exact ⟨_, render_error_of_unsupported m x h⟩
  · intro h
    refine ⟨render_error_of_unsupported m x h, ?_⟩
    rintro ⟨d, hd⟩
    rw [render_error_of_unsupported m x h] at hd
    cases hd

theorem render_unsupported_iff_witness :
    (Interface.obj { typ := "int", text := "7" }).supported = false
    ∧ render "text/html" (Interface.obj { typ := "int", text := "7" })
      = Except.error ⟨"unsupported type, cannot render: int"⟩ :=
  ⟨by decide,
    ((render_unsupported_iff "text/html" (Interface.obj { typ := "int", text := "7" })).2.2.1
      (by decide)).1⟩

/-- C12: for an `io.Reader` whose drain returns the bytes `b` and the error `err`,
and any media type, `render` does not fail and returns exactly the error bundle
`makeDataErr err`. -/
theorem render_reader_error (m : String) (o : Object) (b : List Byte) (err : GoError)
    (h : o.Read = some (b, some err)) :
    render m (Interface.obj o) = Except.ok (makeDataErr err) := by
  simp [render, h, fillDefaults]

theorem render_reader_error_witness :
    render "image/png"
        (Interface.obj { typ := "*os.File", text := "file",
                         Read := some ([1, 2], some ⟨"read: connection reset"⟩) })
      = Except.ok (makeDataErr ⟨"read: connection reset"⟩) :=
  render_reader_error "image/png" _ [1, 2] ⟨"read: connection reset"⟩ rfl

/-- C13: `MIME d md` is the bundle whose data map is `d`, whose metadata map is
`md` and whose transient map is nil; no entry is added, the key `text/plain` has
an entry in the result exactly when it has one in `d`. -/
theorem MIME_verbatim (d md : MIMEMap) :
    (MIME d md).Data = d ∧ (MIME d md).Metadata = md ∧ (MIME d md).Transient = none
    ∧ (MIME d md).Data.has MIMETypeText = d.has MIMETypeText :=
  ⟨rfl, rfl, rfl, rfl⟩

theorem autoRenderResults_eq (vals : List Interface) :
    autoRenderResults vals = MakeData MIMETypeText (Value.str (SprintAll vals)) := rfl

/-- C14, evaluated on the code: for the single value whose `HTML` method returns
`"<b>hi</b>"` and which prints as `"page"`, `autoRenderResults` returns the
plain-text bundle `text/plain -> "page"` without an entry `text/html`, although
the entry `"HTMLer"` of `autoRenderers` converts the value to `text/html`. -/
theorem autoRenderResults_ignores_capability :
    autoRenderResults [Interface.obj { typ := "page", text := "page", HTML := some "<b>hi</b>" }]
      = { Data := some [("text/plain", Value.str "page")] }
    ∧ (autoRenderResults
        [Interface.obj { typ := "page", text := "page", HTML := some "<b>hi</b>" }]).Data.has
          "text/html" = false
    ∧ autoRenderers.HTMLer {}
        (Interface.obj { typ := "page", text := "page", HTML := some "<b>hi</b>" })
      = { Data := some [("text/html", Value.str "<b>hi</b>")] } := by
  decide

/-! ## Properties of the other entries of the registry -/

/-- C17: for any accumulator `d` and an image whose encoding returns the error
`err`, the entry `"Image"` returns exactly `makeDataErr err`; nothing of `d`
is kept. -/
theorem Image_encode_failure (d : Data) (o : Object) (img : ImageValue) (b : List Byte)
    (mimeType : String) (err : GoError) (hi : o.Image = some img)
    (he : img.encodePng = (b, mimeType, some err)) :
    autoRenderers.Image d (Interface.obj o) = makeDataErr err := by
  simp [autoRenderers.Image, Interface.object?, hi, he]

theorem Image_encode_failure_witness :
    autoRenderers.Image
        { Data := some [("text/html", Value.str "x")], Metadata := some [("a", Value.nil)] }
        (Interface.obj { typ := "*image.RGBA", text := "image",
                         Image := some { encodePng := ([], "", some ⟨"png: invalid format"⟩),
                                         imageMetadata := none } })
      = makeDataErr ⟨"png: invalid format"⟩ :=
  Image_encode_failure _ _ { encodePng := ([], "", some ⟨"png: invalid format"⟩),
                             imageMetadata := none } [] "" ⟨"png: invalid format"⟩ rfl rfl

/-- C19: each of the twelve entries of `autoRenderers` returns the accumulator
itself, with its three maps as they are, when the value does not satisfy the
capability of the entry. -/
theorem unsatisfied_noop (d : Data) (i : Interface) :
    (i.object?.bind Object.Render = none → autoRenderers.Renderer d i = d)
    ∧ (i.object?.bind Object.SimpleRender = none → autoRenderers.SimpleRenderer d i = d)
    ∧ (i.object?.bind Object.HTML = none → autoRenderers.HTMLer d i = d)
    ∧ (i.object?.bind Object.JavaScript = none → autoRenderers.JavaScripter d i = d)
    ∧ (i.object?.bind Object.JPEG = none → autoRenderers.JPEGer d i = d)
    ∧ (i.object?.bind Object.JSON = none → autoRenderers.JSONer d i = d)
    ∧ (i.object?.bind Object.Latex = none → autoRenderers.Latexer d i = d)
    ∧ (i.object?.bind Object.Markdown = none → autoRenderers.Markdowner d i = d)
    ∧ (i.object?.bind Object.PNG = none → autoRenderers.PNGer d i = d)
    ∧ (i.object?.bind Object.PDF = none → autoRenderers.PDFer d i = d)
    ∧ (i.object?.bind Object.SVG = none → autoRenderers.SVGer d i = d)
    ∧ (i.object?.bind Object.Image = none → autoRenderers.Image d i = d) := by
  refine ⟨?_, ?_, ?_, ?_, ?_, ?_, ?_, ?_, ?_, ?_, ?_, ?_⟩
  · intro h; simp only [autoRenderers.Renderer, h]
  · intro h; simp only [autoRenderers.SimpleRenderer, h]
  · intro h; simp only [autoRenderers.HTMLer, h]
  · intro h; simp only [autoRenderers.JavaScripter, h]
  · intro h; simp only [autoRenderers.JPEGer, h]
  · intro h; simp only [autoRenderers.JSONer, h]
  · intro h; simp only [autoRenderers.Latexer, h]
  · intro h; simp only [autoRenderers.Markdowner, h]
  · intro h; simp only [autoRenderers.PNGer, h]
  · intro h; simp only [autoRenderers.PDFer, h]
  · intro h; simp only [autoRenderers.SVGer, h]
  · intro h; simp only [autoRenderers.Image, h]

theorem unsatisfied_noop_witness :
    (Interface.str "plain").object?.bind Object.HTML = none
    ∧ autoRenderers.HTMLer { Metadata := some [] } (Interface.str "plain")
      = { Metadata := some [] } :=
  ⟨rfl, (unsatisfied_noop { Metadata := some [] } (Interface.str "plain")).2.2.1 rfl⟩

/-! ## Properties of `render` on byte input -/

theorem fillDefaults_bytes (v : Value) (b : List Byte) (m : String) (hb : b ≠ []) :
    fillDefaults {} v "" b m none
      = { Data := some (if effectiveType m b ≠ "" ∧ effectiveType m b ≠ MIMETypeText
                        then [(effectiveType m b, Value.bytes b)] else []) } := by
  simp only [fillDefaults, effectiveType, hb, Map.get, Map.set, ne_eq, not_true_eq_false,
    false_and, if_false, not_false_eq_true, if_true]
  split <;> simp_all

theorem fillDefaults_no_bytes (v : Value) (m : String) :
    fillDefaults {} v "" [] m none = { Data := some [] } := by
  simp [fillDefaults, Map.get]

theorem fillDefaults_len_le_one (v : Value) (b : List Byte) (m : String) :
    (fillDefaults {} v "" b m none).Data.len ≤ 1 := by
  by_cases hb : b = []
  · subst hb
    simp [fillDefaults_no_bytes, MIMEMap.len]
  · rw [fillDefaults_bytes v b m hb]
    simp only [MIMEMap.len]
    split_ifs <;> simp

theorem makeDataErr_len (e : GoError) : (makeDataErr e).Data.len = 4 := by
  simp [makeDataErr, Map.set, MIMEMap.len]

theorem render_bytes_general (m : String) (b : List Byte) (hb : b ≠ []) :
    render m (Interface.bytes b)
      = Except.ok
          { Data := some (if effectiveType m b ≠ "" ∧ effectiveType m b ≠ MIMETypeText
                          then [(effectiveType m b, Value.bytes b)] else []) } := by
  simp only [render, Interface.toValue]
  rw [fillDefaults_bytes _ b m hb]

/-- C18, evaluated on the code: the bytes of `"hello"` sniff as
`text/plain; charset=utf-8`, which is not the string `text/plain` that
`fillDefaults` compares with, so `Auto` returns the bundle whose single entry
holds the raw bytes under the key `text/plain; charset=utf-8`: the result does
hold the raw bytes, under a key other than `text/plain`. -/
theorem Auto_text_bytes_stored :
    DetectContentType (sigBytes "hello") = "text/plain; charset=utf-8"
    ∧ Auto (Interface.bytes (sigBytes "hello"))
      = Except.ok
          { Data := some [("text/plain; charset=utf-8", Value.bytes (sigBytes "hello"))] }
    ∧ ¬ ∃ d, Auto (Interface.bytes (sigBytes "hello")) = Except.ok d
        ∧ (∀ k, d.Data.get k ≠ Value.bytes (sigBytes "hello"))
        ∧ (∀ k, d.Data.has k = true → k = "text/plain") := by
  have h : Auto (Interface.bytes (sigBytes "hello"))
      = Except.ok
          { Data := some [("text/plain; charset=utf-8", Value.bytes (sigBytes "hello"))] } := by
    decide
  refine ⟨by decide, h, ?_⟩
  rintro ⟨d, hd, hno, -⟩
  rw [h] at hd
  injection hd with hd
  subst hd
  exact hno "text/plain; charset=utf-8" (by decide)

/-- C20, as stated, fails: a value that implements both `io.Reader` and
`io.WriterTo` is taken by the `io.Reader` case of the type switch, which comes
first, so its `WriteTo` is not called; when its drain fails with the error that
its `WriteTo` would return, `render` returns the error bundle of that error and
not the bundle of the bytes that `WriteTo` would write. -/
theorem render_writerTo_reader_counterexample :
    ¬ (render ""
          (Interface.obj {
            typ := "*main.pipe", text := "pipe",
            Read := some ([], some ⟨"closed"⟩),
            WriteTo := some ([104, 105], some ⟨"closed"⟩) })
        = Except.ok (fillDefaults {} (Value.other "*main.pipe" "pipe") "" [104, 105] "" none)
       ∧ render ""
          (Interface.obj {
            typ := "*main.pipe", text := "pipe",
            Read := some ([], some ⟨"closed"⟩),
            WriteTo := some ([104, 105], some ⟨"closed"⟩) })
        ≠ Except.ok (makeDataErr ⟨"closed"⟩)) := by
  decide

/-- C20, amended: for an `io.WriterTo` that is not also an `io.Reader`, whose
`WriteTo` writes the bytes `b` and returns a non-nil error, `render m w` is
`fillDefaults(Data{}, w, "", b, m, nil)`, the same bundle as for a write of `b`
without error, and it is not the error bundle of any error. -/
theorem render_writerTo_error_dropped (m : String) (o : Object) (b : List Byte) (err : GoError)
    (hr : o.Read = none) (hw : o.WriteTo = some (b, some err)) :
    render m (Interface.obj o)
      = Except.ok (fillDefaults {} (Interface.obj o).toValue "" b m none)
    ∧ render m (Interface.obj o) = render m (Interface.obj { o with WriteTo := some (b, none) })
    ∧ ∀ e, render m (Interface.obj o) ≠ Except.ok (makeDataErr e) := by
  have h1 : render m (Interface.obj o)
      = Except.ok (fillDefaults {} (Interface.obj o).toValue "" b m none) := by
    simp [render, hr, hw]
  refine ⟨h1, ?_, ?_⟩
  · rw [h1]
    simp [render, hr, Interface.toValue]
  · intro e he
    rw [h1] at he
    injection he with he
    have hlen := fillDefaults_len_le_one (Interface.obj o).toValue b m
    rw [he, makeDataErr_len] at hlen
    omega

theorem render_writerTo_error_dropped_witness :
    render ""
        (Interface.obj {
          typ := "*main.doc", text := "pipe",
          WriteTo := some ([104, 105], some ⟨"short write"⟩) })
      = Except.ok (fillDefaults {} (Value.other "*main.doc" "pipe") "" [104, 105] "" none) :=
  (render_writerTo_error_dropped ""
    { typ := "*main.doc", text := "pipe", WriteTo := some ([104, 105], some ⟨"short write"⟩) }
    [104, 105] ⟨"short write"⟩ rfl rfl).1

/-! ## Delimiter normalisation of the math builder -/

theorem rdropWhile_eq_reverse {α : Type} (p : α → Bool) (l : List α) :
    l.rdropWhile p = (l.reverse.dropWhile p).reverse := rfl

theorem trim_core_append {α : Type} (p : α → Bool) (pre l post : List α)
    (hpre : ∀ a ∈ pre, p a = true) (hpost : ∀ a ∈ post, p a = true) :
    ((pre ++ l ++ post).rdropWhile p).dropWhile p = (l.rdropWhile p).dropWhile p := by
  have hpost' : ∀ a ∈ post.reverse, p a = true := fun a ha => hpost a (List.mem_reverse.mp ha)
  have hpre' : ∀ a ∈ pre.reverse, p a = true := fun a ha => hpre a (List.mem_reverse.mp ha)
  rw [rdropWhile_eq_reverse, rdropWhile_eq_reverse]
  rw [List.reverse_append, List.reverse_append, List.dropWhile_append_of_pos hpost',
    List.dropWhile_append]
  split
  · next hempty =>
    have hnil : List.dropWhile p l.reverse = [] := List.isEmpty_iff.mp hempty
    rw [hnil, List.dropWhile_eq_nil_iff.mpr hpre']
  · rw [List.reverse_append, List.reverse_reverse, List.dropWhile_append_of_pos hpre]

theorem trim_core_split {α : Type} (p : α → Bool) (l : List α) :
    ∃ pre post, (∀ a ∈ pre, p a = true) ∧ (∀ a ∈ post, p a = true)
      ∧ l = pre ++ (l.rdropWhile p).dropWhile p ++ post := by
  refine ⟨(l.rdropWhile p).takeWhile p, (l.reverse.takeWhile p).reverse, ?_, ?_, ?_⟩
  · intro a ha
    exact (List.mem_takeWhile_imp ha)
  · intro a ha
    exact List.mem_takeWhile_imp (List.mem_reverse.mp ha)
  · rw [List.takeWhile_append_dropWhile, rdropWhile_eq_reverse, ← List.reverse_append,
      List.takeWhile_append_dropWhile, List.reverse_reverse]

theorem trim_core_head {α : Type} (p : α → Bool) (l : List α) (a : α)
    (h : ((l.rdropWhile p).dropWhile p).head? = some a) : p a = false := by
  have := List.head?_dropWhile_not p (l.rdropWhile p)
  rw [h] at this
  exact this

theorem trim_core_last {α : Type} (p : α → Bool) (l : List α) (a : α)
    (h : ((l.rdropWhile p).dropWhile p).getLast? = some a) : p a = false := by
  have hne : (l.rdropWhile p).dropWhile p ≠ [] := by
    intro hnil
    rw [hnil] at h
    cases h
  have hsuf : (l.rdropWhile p).dropWhile p <:+ l.rdropWhile p := List.dropWhile_suffix p
  have hr : l.rdropWhile p ≠ [] := by
    intro hnil
    rw [hnil] at hne
    exact hne rfl
  have hlast := hsuf.getLast hne
  rw [List.getLast?_eq_getLast _ hne] at h
  have ha : ((l.rdropWhile p).dropWhile p).getLast hne = a := by
    injection h
  have hnot := List.rdropWhile_last_not p l hr
  rw [← ha, hlast]
  simpa using hnot

theorem all_dollar_eq_replicate (l : List Char)
    (h : ∀ a ∈ l, (fun c => "$".data.contains c) a = true) : l = List.replicate l.length '$' := by
  rw [List.eq_replicate_iff]
  refine ⟨rfl, ?_⟩
  intro b hb
  have hcut : "$".data = ['$'] := rfl
  have := h b hb
  simpa [hcut] using this

theorem Trim_data (s : String) :
    (Trim s "$").data
      = (s.data.rdropWhile (fun c => "$".data.contains c)).dropWhile
          (fun c => "$".data.contains c) := rfl

theorem Trim_dollars_append (s : String) (n k : Nat) :
    Trim (dollars n ++ s ++ dollars k) "$" = Trim s "$" := by
  have hcut : "$".data = ['$'] := rfl
  apply String.ext
  rw [Trim_data, Trim_data]
  have hd : (dollars n ++ s ++ dollars k).data
      = List.replicate n '$' ++ s.data ++ List.replicate k '$' := by
    simp [dollars]
  rw [hd]
  apply trim_core_append
  · intro a ha
    rw [List.eq_of_mem_replicate ha]
    simp [hcut]
  · intro a ha
    rw [List.eq_of_mem_replicate ha]
    simp [hcut]

/-- C15: adding any number of `$` before and after the input does not change the
entry `text/latex` of `Math`; the entry is `"$$" + t + "$$"` for the trimmed
input `t`, which is the input without its leading and trailing `$`: the input is
`t` between two runs of `$`, and `t` neither starts nor ends with `$`. -/
theorem Math_delimiters (s : String) (n k : Nat) :
    (Math (dollars n ++ s ++ dollars k)).Data.get "text/latex" = (Math s).Data.get "text/latex"
    ∧ (Math s).Data.get "text/latex" = Value.str ("$$" ++ Trim s "$" ++ "$$")
    ∧ (∃ i j, s = dollars i ++ Trim s "$" ++ dollars j)
    ∧ (Trim s "$").data.head? ≠ some '$'
    ∧ (Trim s "$").data.getLast? ≠ some '$' := by
  have hcut : "$".data = ['$'] := rfl
  have hget : ∀ x : String,
      (Math x).Data.get "text/latex" = Value.str ("$$" ++ Trim x "$" ++ "$$") := by
    intro x
    exact MakeData3_get_primary MIMETypeLatex x _
  refine ⟨?_, hget s, ?_, ?_, ?_⟩
  · rw [hget, hget, Trim_dollars_append]
  · obtain ⟨pre, post, hpre, hpost, hl⟩ :=
      trim_core_split (fun c => "$".data.contains c) s.data
    refine ⟨pre.length, post.length, ?_⟩
    apply String.ext
    have hd : (dollars pre.length ++ Trim s "$" ++ dollars post.length).data
        = List.replicate pre.length '$' ++ (Trim s "$").data
          ++ List.replicate post.length '$' := by
      simp [dollars]
    rw [hd, Trim_data, ← all_dollar_eq_replicate pre hpre, ← all_dollar_eq_replicate post hpost]
    exact hl
  · intro h
    rw [Trim_data] at h
    have := trim_core_head _ _ _ h
    simp [hcut] at this
  · intro h
    rw [Trim_data] at h
    have := trim_core_last _ _ _ h
    simp [hcut] at this

theorem Math_delimiters_witness :
    (Math "$x^2$").Data.get "text/latex" = (Math "x^2").Data.get "text/latex"
    ∧ (Math "x^2").Data.get "text/latex" = Value.str "$$x^2$$" :=
  ⟨(Math_delimiters "x^2" 1 1).1, by decide⟩

/-! ## Commutation of the single-format entries -/

theorem mapSameContent_refl (a : MIMEMap) : MIMEMap.sameContent a a :=
  ⟨rfl, fun _ => ⟨rfl, rfl⟩⟩

theorem dataSameContent_refl (x : Data) : Data.sameContent x x :=
  ⟨mapSameContent_refl _, mapSameContent_refl _, mapSameContent_refl _⟩

theorem Map.set_set_sameContent (m : Map) (k1 k2 : String) (v1 v2 : Value) (h : k1 ≠ k2) :
    MIMEMap.sameContent (some (Map.set (Map.set m k2 v2) k1 v1))
      (some (Map.set (Map.set m k1 v1) k2 v2)) := by
  refine ⟨rfl, fun k => ⟨?_, ?_⟩⟩
  · simp only [MIMEMap.has]
    by_cases hk1 : k = k1
    · subst hk1
      rw [Map.has_set_self, Map.has_set_other _ _ _ _ h, Map.has_set_self]
    · by_cases hk2 : k = k2
      · subst hk2
        rw [Map.has_set_other _ _ _ _ hk1, Map.has_set_self, Map.has_set_self]
      · rw [Map.has_set_other _ _ _ _ hk1, Map.has_set_other _ _ _ _ hk2,
          Map.has_set_other _ _ _ _ hk2, Map.has_set_other _ _ _ _ hk1]
  · simp only [MIMEMap.get]
    by_cases hk1 : k = k1
    · subst hk1
      rw [Map.get_set_self, Map.get_set_other _ _ _ _ h, Map.get_set_self]
    · by_cases hk2 : k = k2
      · subst hk2
        rw [Map.get_set_other _ _ _ _ hk1, Map.get_set_self, Map.get_set_self]
      · rw [Map.get_set_other _ _ _ _ hk1, Map.get_set_other _ _ _ _ hk2,
          Map.get_set_other _ _ _ _ hk2, Map.get_set_other _ _ _ _ hk1]

theorem writeIf_comm (k1 k2 : String) (r1 r2 : Option Value) (d : Data) (h : k1 ≠ k2) :
    Data.sameContent (writeIf k1 r1 (writeIf k2 r2 d)) (writeIf k2 r2 (writeIf k1 r1 d)) := by
  cases r1 with
  | none => exact dataSameContent_refl _
  | some v1 =>
    cases r2 with
    | none => exact dataSameContent_refl _
    | some v2 =>
      refine ⟨?_, mapSameContent_refl _, mapSameContent_refl _⟩
      simp only [writeIf, ensure]
      exact Map.set_set_sameContent (ensure d.Data) k1 k2 v1 v2 h

theorem singleFormat_entry_shape (n : String) (f : Data → Interface → Data)
    (hn : n ∈ singleFormatNames) (hl : List.lookup n autoRenderers = some f) :
    ∃ (key : String) (val : Interface → Option Value),
      List.lookup n singleFormatKeys = some key ∧ ∀ d i, f d i = writeIf key (val i) d := by
  simp only [singleFormatNames, List.mem_cons, List.mem_singleton, List.not_mem_nil,
    or_false] at hn
  rcases hn with rfl | rfl | rfl | rfl | rfl | rfl | rfl | rfl | rfl
  · refine ⟨MIMETypeHTML, fun i => (i.object?.bind Object.HTML).map Value.str, by decide, ?_⟩
    have hf : f = autoRenderers.HTMLer := by
      have : List.lookup "HTMLer" autoRenderers = some autoRenderers.HTMLer := rfl
      rw [this] at hl
      injection hl with hl
      exact hl.symm
    subst hf
    intro d i
    show autoRenderers.HTMLer d i = writeIf MIMETypeHTML ((i.object?.bind Object.HTML).map Value.str) d
    unfold autoRenderers.HTMLer writeIf
    cases i.object?.bind Object.HTML <;> rfl
  · refine ⟨MIMETypeJavaScript, fun i => (i.object?.bind Object.JavaScript).map Value.str,
      by decide, ?_⟩
    have hf : f = autoRenderers.JavaScripter := by
      have : List.lookup "JavaScripter" autoRenderers = some autoRenderers.JavaScripter := rfl
      rw [this] at hl
      injection hl with hl
      exact hl.symm
    subst hf
    intro d i
    show autoRenderers.JavaScripter d i = writeIf MIMETypeJavaScript ((i.object?.bind Object.JavaScript).map Value.str) d
    unfold autoRenderers.JavaScripter writeIf
    cases i.object?.bind Object.JavaScript <;> rfl
  · refine ⟨MIMETypeJPEG, fun i => (i.object?.bind Object.JPEG).map Value.bytes, by decide, ?_⟩
    have hf : f = autoRenderers.JPEGer := by
      have : List.lookup "JPEGer" autoRenderers = some autoRenderers.JPEGer := rfl
      rw [this] at hl
      injection hl with hl
      exact hl.symm
    subst hf
    intro d i
    show autoRenderers.JPEGer d i = writeIf MIMETypeJPEG ((i.object?.bind Object.JPEG).map Value.bytes) d
    unfold autoRenderers.JPEGer writeIf
    cases i.object?.bind Object.JPEG <;> rfl
  · refine ⟨MIMETypeJSON, fun i => i.object?.bind Object.JSON, by decide, ?_⟩
    have hf : f = autoRenderers.JSONer := by
      have : List.lookup "JSONer" autoRenderers = some autoRenderers.JSONer := rfl
      rw [this] at hl
      injection hl with hl
      exact hl.symm
    subst hf
    intro d i
    show autoRenderers.JSONer d i = writeIf MIMETypeJSON (i.object?.bind Object.JSON) d
    unfold autoRenderers.JSONer writeIf
    cases i.object?.bind Object.JSON <;> rfl
  · refine ⟨MIMETypeLatex, fun i => (i.object?.bind Object.Latex).map Value.str, by decide, ?_⟩
    have hf : f = autoRenderers.Latexer := by
      have : List.lookup "Latexer" autoRenderers = some autoRenderers.Latexer := rfl
      rw [this] at hl
      injection hl with hl
      exact hl.symm
    subst hf
    intro d i
    show autoRenderers.Latexer d i = writeIf MIMETypeLatex ((i.object?.bind Object.Latex).map Value.str) d
    unfold autoRenderers.Latexer writeIf
    cases i.object?.bind Object.Latex <;> rfl
  · refine ⟨MIMETypeMarkdown, fun i => (i.object?.bind Object.Markdown).map Value.str,
      by decide, ?_⟩
    have hf : f = autoRenderers.Markdowner := by
      have : List.lookup "Markdowner" autoRenderers = some autoRenderers.Markdowner := rfl
      rw [this] at hl
      injection hl with hl
      exact hl.symm
    subst hf
    intro d i
    show autoRenderers.Markdowner d i = writeIf MIMETypeMarkdown ((i.object?.bind Object.Markdown).map Value.str) d
    unfold autoRenderers.Markdowner writeIf
    cases i.object?.bind Object.Markdown <;> rfl
  · refine ⟨MIMETypePNG, fun i => (i.object?.bind Object.PNG).map Value.bytes, by decide, ?_⟩
    have hf : f = autoRenderers.PNGer := by
      have : List.lookup "PNGer" autoRenderers = some autoRenderers.PNGer := rfl
      rw [this] at hl
      injection hl with hl
      exact hl.symm
    subst hf
    intro d i
    show autoRenderers.PNGer d i = writeIf MIMETypePNG ((i.object?.bind Object.PNG).map Value.bytes) d
    unfold autoRenderers.PNGer writeIf
    cases i.object?.bind Object.PNG <;> rfl
  · refine ⟨MIMETypePDF, fun i => (i.object?.bind Object.PDF).map Value.bytes, by decide, ?_⟩
    have hf : f = autoRenderers.PDFer := by
      have : List.lookup "PDFer" autoRenderers = some autoRenderers.PDFer := rfl
      rw [this] at hl
      injection hl with hl
      exact hl.symm
    subst hf
    intro d i
    show autoRenderers.PDFer d i = writeIf MIMETypePDF ((i.object?.bind Object.PDF).map Value.bytes) d
    unfold autoRenderers.PDFer writeIf
    cases i.object?.bind Object.PDF <;> rfl
  · refine ⟨MIMETypeSVG, fun i => (i.object?.bind Object.SVG).map Value.str, by decide, ?_⟩
    have hf : f = autoRenderers.SVGer := by
      have : List.lookup "SVGer" autoRenderers = some autoRenderers.SVGer := rfl
      rw [this] at hl
      injection hl with hl
      exact hl.symm
    subst hf
    intro d i
    show autoRenderers.SVGer d i = writeIf MIMETypeSVG ((i.object?.bind Object.SVG).map Value.str) d
    unfold autoRenderers.SVGer writeIf
    cases i.object?.bind Object.SVG <;> rfl

theorem singleFormatKeys_injective :
    ∀ n1 ∈ singleFormatNames, ∀ n2 ∈ singleFormatNames,
      List.lookup n1 singleFormatKeys = List.lookup n2 singleFormatKeys → n1 = n2 := by
  decide

/-- C16: any two distinct single-format entries of `autoRenderers` commute on
every accumulator and value: applied in either order they give bundles with
equal content, since the two entries assign different keys. -/
theorem singleFormat_commute (nf ng : String) (f g : Data → Interface → Data)
    (hf : nf ∈ singleFormatNames) (hg : ng ∈ singleFormatNames) (hne : nf ≠ ng)
    (hlf : List.lookup nf autoRenderers = some f) (hlg : List.lookup ng autoRenderers = some g)
    (d : Data) (v : Interface) :
    Data.sameContent (f (g d v) v) (g (f d v) v) := by
  obtain ⟨kf, valf, hkf, hshapef⟩ := singleFormat_entry_shape nf f hf hlf
  obtain ⟨kg, valg, hkg, hshapeg⟩ := singleFormat_entry_shape ng g hg hlg
  have hk : kf ≠ kg := by
    intro heq
    apply hne
    apply singleFormatKeys_injective nf hf ng hg
    rw [hkf, hkg, heq]
  rw [hshapef, hshapeg, hshapef, hshapeg]
  exact writeIf_comm kf kg (valf v) (valg v) d hk

theorem singleFormat_commute_witness :
    Data.sameContent
      (autoRenderers.HTMLer
        (autoRenderers.SVGer {} (Interface.obj { typ := "t", text := "t", HTML := some "h",
                                                 SVG := some "s" }))
        (Interface.obj { typ := "t", text := "t", HTML := some "h", SVG := some "s" }))
      (autoRenderers.SVGer
        (autoRenderers.HTMLer {} (Interface.obj { typ := "t", text := "t", HTML := some "h",
                                                  SVG := some "s" }))
        (Interface.obj { typ := "t", text := "t", HTML := some "h", SVG := some "s" })) :=
  singleFormat_commute "HTMLer" "SVGer" autoRenderers.HTMLer autoRenderers.SVGer
    (by decide) (by decide) (by decide) rfl rfl {}
    (Interface.obj { typ := "t", text := "t", HTML := some "h", SVG := some "s" })

end Gopyter
